import Mathlib

/-!
Shallow embedding of the peer-discovery and rate-limiting core of the
NeoUptime node-registry backend (TypeScript + Express + SQLite).

Timestamps: the source stores `new Date().toISOString()` strings and compares
them lexicographically; since all such strings share one fixed-width UTC
format, lexicographic order coincides with chronological order, so timestamps
are embedded as integer milliseconds since the epoch.
-/

namespace NeoUptime

/-! ### Data model (tables from the INITIALIZE_SQL schema) -/

/-- A row of the `nodes` table. -/
structure NodeRow where
  id : Nat
  description : Option String := none
  name : String
  host : String
  port : Int
  protocol : String
  allow_relay : Bool := true
  network_name : Option String := none
  network_secret : Option String := none
  max_connections : Int
  region : Option String := none
  ISP : Option String := none
  qq_number : Option String := none
  mail : Option String := none
  created_at : Int := 0
  status : String := "Offline"
  last_status_update : Option Int := none
  response_time : Option Int := none
  updated_at : Int := 0
deriving Repr, DecidableEq

/-- A row of the `api_keys` table. -/
structure ApiKeyRow where
  id : Nat
  key : String
  description : Option String := none
  created_by : Option Nat := none
  created_at : Int := 0
  updated_at : Int := 0
  expires_at : Option Int := none
  is_active : Bool := true
  last_used_at : Option Int := none
  rate_limit : Int
deriving Repr, DecidableEq

/-- A row of the `api_access_logs` table. -/
structure AccessLogRow where
  api_key_id : Option Nat
  ip_address : String := ""
  endpoint : String := ""
  method : String := "GET"
  user_agent : Option String := none
  status_code : Int := 200
  response_time : Option Int := none
  created_at : Int
deriving Repr, DecidableEq

/-- A row of the `node_status_history` table. -/
structure StatusHistoryRow where
  node_id : Nat
  status : String
  checked_at : Int
  response_time : Option Int := none
  metadata : Option String := none
deriving Repr, DecidableEq

/-- The durable store: the four tables the core reads and writes. -/
structure Store where
  nodes : List NodeRow := []
  api_keys : List ApiKeyRow := []
  api_access_logs : List AccessLogRow := []
  node_status_history : List StatusHistoryRow := []
deriving Repr, DecidableEq

/-- Errors raised by the store driver (SQLite). -/
inductive DbError where
  | noSuchColumn (table column : String)
  | ioFailure
deriving Repr, DecidableEq

/-! ### Rate limiter (`ApiKey.checkRateLimit`) -/

/-- Result shape of `ApiKey.checkRateLimit`. -/
structure RateLimitResult where
  allowed : Bool
  remaining : Int
  reset_at : Int
deriving Repr, DecidableEq

/-- `SELECT rate_limit FROM api_keys WHERE id = ?` (first matching row). -/
def findApiKey (s : Store) (apiKeyId : Nat) : Option ApiKeyRow :=
  s.api_keys.find? (fun k => k.id == apiKeyId)

/-- `SELECT COUNT(*) FROM api_access_logs WHERE api_key_id = ? AND created_at > ?`
with the parameter bound to `now - 60000` ms: the number of log rows for the
credential whose timestamp is strictly greater than one minute before `now`.
A row whose `api_key_id` is NULL never matches the equality. -/
def windowCount (logs : List AccessLogRow) (apiKeyId : Nat) (now : Int) : Nat :=
  (logs.filter (fun e => e.api_key_id == some apiKeyId && decide (now - 60000 < e.created_at))).length

/-- `ApiKey.checkRateLimit`: look up the credential; unknown id yields
`allowed=false, remaining=0, reset_at=now`; otherwise count the last-minute
log rows, `remaining = rate_limit - count`, `allowed = remaining > 0`,
reported `remaining` clamped at 0, and `reset_at` the start of the next
wall-clock minute. -/
def checkRateLimit (s : Store) (apiKeyId : Nat) (now : Int) : RateLimitResult :=
  match findApiKey s apiKeyId with
  | none => { allowed := false, remaining := 0, reset_at := now }
  | some k =>
      let count : Int := windowCount s.api_access_logs apiKeyId now
      let remaining : Int := k.rate_limit - count
      { allowed := decide (0 < remaining)
        remaining := max 0 remaining
        reset_at := 60000 * (now / 60000 + 1) }

/-- Modelled from the spec's words for the window count (claims C1/C2):
entries "with timestamp within the last 60 seconds (inclusive lower bound at
now − 60s)" and upper bound at call time `now`. Used only to compare the
spec's window against the source's window. -/
def specWindowCount (logs : List AccessLogRow) (apiKeyId : Nat) (now : Int) : Nat :=
  (logs.filter (fun e =>
    e.api_key_id == some apiKeyId &&
    decide (now - 60000 ≤ e.created_at) && decide (e.created_at ≤ now))).length

/-! ### Peer selector (`Node.getPeers`) -/

/-- Parameters of `Node.getPeers` (`count?`, `protocol?`, `region?`). -/
structure GetPeersParams where
  count : Option Nat := none
  protocol : Option String := none
  region : Option String := none
deriving Repr, DecidableEq

/-- Result shape of `Node.getPeers`. -/
structure GetPeersResult where
  peers : List NodeRow
  total_available : Nat
  next_batch_available : Bool
deriving Repr, DecidableEq

/-- `Math.min(params.count || 5, 20)`: a missing or zero `count` (falsy in JS)
defaults to 5, then the value is capped at 20. -/
def clampCount (c : Option Nat) : Nat :=
  min (match c with | none => 5 | some 0 => 5 | some n => n) 20

/-- JavaScript `String.prototype.trim()`: strip leading and trailing
whitespace. -/
def jsTrim (s : String) : String :=
  String.mk (((s.data.dropWhile Char.isWhitespace).reverse.dropWhile Char.isWhitespace).reverse)

/-- The protocol WHERE clause: added only when `params.protocol` is truthy
(present and not the empty string), as `protocol = ?`. -/
def protocolOk (p : Option String) (n : NodeRow) : Bool :=
  match p with
  | none => true
  | some pr => if pr = "" then true else n.protocol == pr

/-- The region WHERE clause: added only when `params.region` is truthy and
non-blank after trimming (`params.region && params.region.trim() !== ""`),
as `(region = ? OR region IS NULL)` with the trimmed filter bound. -/
def regionOk (r : Option String) (n : NodeRow) : Bool :=
  match r with
  | none => true
  | some rf =>
      if jsTrim rf = "" then true
      else (n.region == some (jsTrim rf) || n.region == none)

/-- The full WHERE clause of both `getPeers` queries:
`status = 'Online'` plus the optional protocol and region conditions. -/
def eligible (p : GetPeersParams) (n : NodeRow) : Bool :=
  n.status == "Online" && protocolOk p.protocol n && regionOk p.region n

/-- `(response_time IS NULL)` as the leading sort key: 0 for rows with a
measured response time, 1 for NULL rows (nulls last). -/
def nullFlag (n : NodeRow) : Nat :=
  match n.response_time with
  | some _ => 0
  | none => 1

/-- The `response_time ASC` sort key; NULL rows all compare equal here
(they are separated from non-NULL rows by `nullFlag` already). -/
def rtv (n : NodeRow) : Int :=
  n.response_time.getD 0

/-- The ORDER BY of the peer query:
`(response_time IS NULL) ASC, response_time ASC, RANDOM()`, with the
per-call random draw modelled as a valuation `draw` of each node id. -/
def peerLe (draw : Nat → Nat) (a b : NodeRow) : Prop :=
  nullFlag a < nullFlag b ∨
    (nullFlag a = nullFlag b ∧
      (rtv a < rtv b ∨ (rtv a = rtv b ∧ draw a.id ≤ draw b.id)))

instance (draw : Nat → Nat) : DecidableRel (peerLe draw) := fun a b => by
  unfold peerLe; exact inferInstance

instance (draw : Nat → Nat) : IsTotal NodeRow (peerLe draw) :=
  ⟨by intro a b; unfold peerLe; omega⟩

instance (draw : Nat → Nat) : IsTrans NodeRow (peerLe draw) :=
  ⟨by intro a b c hab hbc; unfold peerLe at hab hbc ⊢; omega⟩

/-- `Node.getPeers`: clamp the requested count, count all rows matching the
WHERE clause (`total_available`, computed before truncation), order the same
rows by health with a per-call random tie-break, return the first `count`
of them (`LIMIT ?`), and set `next_batch_available = totalAvailable > count`. -/
def getPeers (s : Store) (p : GetPeersParams) (draw : Nat → Nat) : GetPeersResult :=
  let cnt := clampCount p.count
  let candidates := s.nodes.filter (eligible p)
  let totalAvailable := candidates.length
  let sorted := List.insertionSort (peerLe draw) candidates
  { peers := sorted.take cnt
    total_available := totalAvailable
    next_batch_available := decide (totalAvailable > cnt) }

/-! ### Access logger (`ApiKey.logAccess`) and credential deletion -/

/-- The columns of the `api_keys` table as declared by `INITIALIZE_SQL`. -/
def apiKeysColumns : List String :=
  ["id", "key", "description", "created_by", "created_at", "updated_at",
   "expires_at", "is_active", "last_used_at", "rate_limit"]

/-- Input of `ApiKey.logAccess` (`Omit<ApiAccessLog, "id" | "created_at">`);
its `api_key_id` is a plain number, never null. -/
structure LogAccessData where
  api_key_id : Nat
  endpoint : String
  method : String
  ip_address : String
  user_agent : Option String := none
  status_code : Int
  response_time : Option Int := none
deriving Repr, DecidableEq

/-- `INSERT INTO api_access_logs (...) VALUES (...)`: append one row,
timestamped `now`; `user_agent || null` and `response_time || null` map a
missing value (and, for `response_time`, the falsy value 0) to NULL. -/
def insertAccessLog (s : Store) (d : LogAccessData) (now : Int) : Store :=
  { s with api_access_logs := s.api_access_logs ++
      [{ api_key_id := some d.api_key_id
         endpoint := d.endpoint
         method := d.method
         ip_address := d.ip_address
         user_agent := d.user_agent
         status_code := d.status_code
         response_time := match d.response_time with | some 0 => none | x => x
         created_at := now }] }

/-- `UPDATE api_keys SET last_used = ? WHERE id = ?`: the statement names the
column `last_used`, which is checked against the declared `api_keys` columns
(the schema declares `last_used_at`); an unknown column is a SQLite error.
The `ok` branch gives the statement's intended effect on the timestamp column. -/
def updateApiKeysLastUsed (s : Store) (apiKeyId : Nat) (now : Int) : Except DbError Store :=
  if "last_used" ∈ apiKeysColumns then
    let touch := fun (k : ApiKeyRow) =>
      if k.id == apiKeyId then { k with last_used_at := some now } else k
    .ok { s with api_keys := s.api_keys.map touch }
  else
    .error (.noSuchColumn "api_keys" "last_used")

/-- `ApiKey.logAccess`: one transaction inserting the access-log row and then
updating the credential's last-used column; an error in either statement rolls
the whole transaction back (the caller's store is unchanged) and rejects. -/
def logAccess (s : Store) (d : LogAccessData) (now : Int) : Except DbError Store :=
  updateApiKeysLastUsed (insertAccessLog s d now) d.api_key_id now

/-- The `apiKeyAuth` middleware's fire-and-forget call site:
`ApiKey.logAccess(...).catch(err => logger.error(...))` — a rejection is
swallowed (store stays as before the transaction) and the response is sent
either way. The `Bool` is whether the request's response still goes out. -/
def middlewareLogAccess (s : Store) (d : LogAccessData) (now : Int) : Store × Bool :=
  match logAccess s d now with
  | .ok s' => (s', true)
  | .error _ => (s, true)

/-- `ApiKey.delete`: one transaction running
`DELETE FROM api_access_logs WHERE api_key_id = ?` and then
`DELETE FROM api_keys WHERE id = ?`; returns whether a key row was deleted. -/
def apiKeyDelete (s : Store) (apiKeyId : Nat) : Store × Bool :=
  let s' := { s with
    api_access_logs := s.api_access_logs.filter (fun e => !(e.api_key_id == some apiKeyId))
    api_keys := s.api_keys.filter (fun k => !(k.id == apiKeyId)) }
  (s', s.api_keys.any (fun k => k.id == apiKeyId))

/-! ### Node status update (`Node.updateStatus`) -/

/-- Whether the durable store is reachable during a call; `failing` makes the
driver's `run` reject, as a StoreError would. -/
inductive StoreHealth where
  | healthy
  | failing
deriving Repr, DecidableEq

/-- The body of `Node.updateStatus` before its catch-all:
`UPDATE nodes SET status = ?, response_time = ?, last_status_update = ?` then
`INSERT INTO node_status_history (...)`; with `PRAGMA foreign_keys = ON` the
history insert rejects when no node has the given id. `responseTime || null`
maps 0 to NULL. Returns `changes > 0` of the UPDATE. -/
def nodeUpdateStatusRaw (h : StoreHealth) (s : Store) (nodeId : Nat) (status : String)
    (metadata : Option String) (responseTime : Option Int) (now : Int) :
    Except DbError (Store × Bool) :=
  match h with
  | .failing => .error .ioFailure
  | .healthy =>
      let rt : Option Int := match responseTime with | some 0 => none | x => x
      if s.nodes.any (fun n => n.id == nodeId) then
        .ok ({ s with
          nodes := s.nodes.map (fun n =>
            if n.id == nodeId then
              { n with status := status, response_time := rt, last_status_update := some now }
            else n)
          node_status_history := s.node_status_history ++
            [{ node_id := nodeId, status := status, metadata := metadata,
               checked_at := now, response_time := rt }] }, true)
      else
        .error .ioFailure

/-- `Node.updateStatus`: the body above wrapped in `try/catch` — any store
error is logged and converted into a plain `false` return, with whatever
state the store had before the failing statement. -/
def nodeUpdateStatus (h : StoreHealth) (s : Store) (nodeId : Nat) (status : String)
    (metadata : Option String) (responseTime : Option Int) (now : Int) : Store × Bool :=
  match nodeUpdateStatusRaw h s nodeId status metadata responseTime now with
  | .ok r => r
  | .error _ => (s, false)

/-! ### Controller (`NodeController.getPeers`) -/

/-- What the HTTP layer sends back for the peers route: either an immediate
400 validation response or a 200 payload with the selector's result. -/
inductive PeersResponse where
  | validationError (message : String)
  | ok (result : GetPeersResult)
deriving Repr, DecidableEq

/-- `(req.query.x as string) || undefined`: an absent or empty query
parameter becomes `undefined`. -/
def orUndefined (q : Option String) : Option String :=
  match q with
  | some "" => none
  | x => x

/-- `NodeController.getPeers`: `rawCount` is `parseInt(req.query.count)`
(`none` for a missing or non-numeric parameter, which is falsy like 0 and
defaults to 5); then `validateNumber(count, 1, 20)` rejects with a 400
before the model is consulted; otherwise `Node.getPeers` runs. The route
performs no store mutation on any path. -/
def parsedCount (rawCount : Option Int) : Int :=
  match rawCount with
  | none => 5
  | some n => if n = 0 then 5 else n

/-- The route handler around `Node.getPeers`, as described on `parsedCount`. -/
def controllerGetPeers (s : Store) (rawCount : Option Int)
    (qProtocol qRegion : Option String) (draw : Nat → Nat) : PeersResponse :=
  let count : Int := parsedCount rawCount
  if 1 ≤ count ∧ count ≤ 20 then
    .ok (getPeers s
      { count := some count.toNat
        protocol := orUndefined qProtocol
        region := orUndefined qRegion } draw)
  else
    .validationError "节点数量必须在 1-20 之间"

/-! ### Theorems: rate limiter (C1, C2) -/

/-- A credential with `rate_limit = 5`. -/
def c1Key : ApiKeyRow := { id := 1, key := "k1", rate_limit := 5 }

/-- A log row for credential 1 at time `t`. -/
def c1Log (t : Int) : AccessLogRow := { api_key_id := some 1, created_at := t }

/-- A store holding credential 1 and exactly five of its log rows inside the
minute before `now = 120000`. -/
def c1Store : Store :=
  { api_keys := [c1Key]
    api_access_logs := [c1Log 100000, c1Log 101000, c1Log 102000, c1Log 103000, c1Log 104000] }

/-- C1, counterexample: credential 1 has rate limit 5 and exactly five log
rows fall in the trailing 60-second window at `now = 120000` (also under the
spec's inclusive reading of the window), yet `checkRateLimit` returns
`allowed = false` — not `allowed = true` as the claim states. -/
theorem c1_counterexample :
    (findApiKey c1Store 1).map (fun k => k.rate_limit) = some 5 ∧
    windowCount c1Store.api_access_logs 1 120000 = 5 ∧
    specWindowCount c1Store.api_access_logs 1 120000 = 5 ∧
    (checkRateLimit c1Store 1 120000).allowed = false ∧
    (checkRateLimit c1Store 1 120000).remaining = 0 :=
  ⟨rfl, rfl, rfl, rfl, rfl⟩

/-- C1 (amended): for a credential present in the store with rate limit `R`,
with exactly `R` window entries `checkRateLimit` returns `allowed = false`
and `remaining = 0` (the cap is exhausted one request earlier than the claim
states); with `R + 1` entries likewise; and `allowed = true` exactly when
strictly fewer than `R` entries are in the window. -/
theorem checkRateLimit_at_cap (s : Store) (k : ApiKeyRow) (now : Int)
    (hk : findApiKey s k.id = some k) :
    ((windowCount s.api_access_logs k.id now : Int) = k.rate_limit →
      (checkRateLimit s k.id now).allowed = false ∧
      (checkRateLimit s k.id now).remaining = 0) ∧
    ((windowCount s.api_access_logs k.id now : Int) = k.rate_limit + 1 →
      (checkRateLimit s k.id now).allowed = false ∧
      (checkRateLimit s k.id now).remaining = 0) ∧
    ((checkRateLimit s k.id now).allowed = true ↔
      (windowCount s.api_access_logs k.id now : Int) < k.rate_limit) := by
  have hall : (checkRateLimit s k.id now).allowed =
      decide (0 < k.rate_limit - (windowCount s.api_access_logs k.id now : Int)) := by
    unfold checkRateLimit; rw [hk]
  have hrem : (checkRateLimit s k.id now).remaining =
      max 0 (k.rate_limit - (windowCount s.api_access_logs k.id now : Int)) := by
    unfold checkRateLimit; rw [hk]
  refine ⟨fun h => ⟨?_, ?_⟩, fun h => ⟨?_, ?_⟩, ?_⟩ <;>
    simp only [hall, hrem, decide_eq_true_eq, decide_eq_false_iff_not, not_lt] <;>
    omega

/-- C1 witness: the amended theorem applied to the concrete store above. -/
theorem checkRateLimit_at_cap_witness :
    ((windowCount c1Store.api_access_logs 1 120000 : Int) = c1Key.rate_limit →
      (checkRateLimit c1Store 1 120000).allowed = false ∧
      (checkRateLimit c1Store 1 120000).remaining = 0) ∧
    ((windowCount c1Store.api_access_logs 1 120000 : Int) = c1Key.rate_limit + 1 →
      (checkRateLimit c1Store 1 120000).allowed = false ∧
      (checkRateLimit c1Store 1 120000).remaining = 0) ∧
    ((checkRateLimit c1Store 1 120000).allowed = true ↔
      (windowCount c1Store.api_access_logs 1 120000 : Int) < c1Key.rate_limit) :=
  checkRateLimit_at_cap c1Store c1Key 120000 rfl

/-- A credential with `rate_limit = 1` and a single log row timestamped
exactly 60 seconds before `now = 120000`. -/
def c2Entry : AccessLogRow := { api_key_id := some 1, created_at := 60000 }

/-- Store for the C2 boundary counterexample. -/
def c2Store : Store :=
  { api_keys := [{ id := 1, key := "k2", rate_limit := 1 }]
    api_access_logs := [c2Entry] }

/-- C2, counterexample: an entry timestamped exactly 60 seconds before `now`
does NOT count — the source's window test is `created_at > now - 60s`,
strict, while the claim asserts an inclusive lower bound: the code counts 0
entries where the claim's window counts 1, observable as `allowed = true`
where the claim's count would exhaust the limit. -/
theorem c2_counterexample :
    c2Entry.created_at = 120000 - 60000 ∧
    windowCount c2Store.api_access_logs 1 120000 = 0 ∧
    specWindowCount c2Store.api_access_logs 1 120000 = 1 ∧
    (checkRateLimit c2Store 1 120000).allowed = true ∧
    (checkRateLimit c2Store 1 120000).remaining = 1 :=
  ⟨rfl, rfl, rfl, rfl, rfl⟩

/-- C2 (amended): the count used by `checkRateLimit` includes a log entry of
the credential exactly when its timestamp is STRICTLY greater than
`now - 60s`: prepending an entry raises the count by one precisely under
that test, and in particular an entry exactly 60 seconds old does not count,
nor does one exactly 61 seconds old. -/
theorem windowCount_boundary (logs : List AccessLogRow) (apiKeyId : Nat) (now : Int)
    (e : AccessLogRow) (he : e.api_key_id = some apiKeyId) :
    (windowCount (e :: logs) apiKeyId now =
      windowCount logs apiKeyId now + if now - 60000 < e.created_at then 1 else 0) ∧
    (e.created_at = now - 60000 →
      windowCount (e :: logs) apiKeyId now = windowCount logs apiKeyId now) ∧
    (e.created_at = now - 61000 →
      windowCount (e :: logs) apiKeyId now = windowCount logs apiKeyId now) := by
  refine ⟨?_, fun h => ?_, fun h => ?_⟩
  · by_cases hlt : now - 60000 < e.created_at
    · simp [windowCount, List.filter_cons, he, hlt]
    · simp [windowCount, List.filter_cons, he, hlt]
  · have hlt : ¬ (now - 60000 < e.created_at) := by omega
    simp [windowCount, List.filter_cons, he, hlt]
  · have hlt : ¬ (now - 60000 < e.created_at) := by omega
    simp [windowCount, List.filter_cons, he, hlt]

/-- C2 witness: the amended boundary theorem at the concrete entry above. -/
theorem windowCount_boundary_witness :
    (windowCount [c2Entry] 1 120000 =
      windowCount [] 1 120000 + if (120000 : Int) - 60000 < c2Entry.created_at then 1 else 0) ∧
    (c2Entry.created_at = 120000 - 60000 →
      windowCount [c2Entry] 1 120000 = windowCount [] 1 120000) ∧
    (c2Entry.created_at = 120000 - 61000 →
      windowCount [c2Entry] 1 120000 = windowCount [] 1 120000) :=
  windowCount_boundary [] 1 120000 c2Entry rfl

/-! ### Theorems: peer selector ordering (C3) -/

/-- The claim's pairwise ordering property for two peers returned in this
order: strictly better response time first, or measured before unmeasured
(nulls last), or tied on response time and ordered by the call's random
draw. -/
def c3Rel (draw : Nat → Nat) (a b : NodeRow) : Prop :=
  (∃ x y, a.response_time = some x ∧ b.response_time = some y ∧ x < y) ∨
  (a.response_time.isSome = true ∧ b.response_time = none) ∨
  (a.response_time = b.response_time ∧ draw a.id < draw b.id)

/-- Every returned peer satisfies the selector's WHERE clause. -/
theorem mem_peers_eligible (s : Store) (p : GetPeersParams) (draw : Nat → Nat)
    (n : NodeRow) (hn : n ∈ (getPeers s p draw).peers) : eligible p n = true := by
  unfold getPeers at hn
  have h1 : n ∈ List.insertionSort (peerLe draw) (s.nodes.filter (eligible p)) :=
    (List.take_sublist _ _).mem hn
  have h2 : n ∈ s.nodes.filter (eligible p) :=
    (List.perm_insertionSort (peerLe draw) _).mem_iff.mp h1
  exact List.of_mem_filter h2

/-- The returned peer list is pairwise ordered by the ORDER BY relation. -/
theorem peers_pairwise_le (s : Store) (p : GetPeersParams) (draw : Nat → Nat) :
    ((getPeers s p draw).peers).Pairwise (peerLe draw) := by
  unfold getPeers
  exact ((List.sorted_insertionSort (peerLe draw) _).sublist (List.take_sublist _ _))

/-- When node ids are unique in the store, the returned peers have pairwise
distinct ids. -/
theorem peers_pairwise_ne (s : Store) (p : GetPeersParams) (draw : Nat → Nat)
    (hnodup : (s.nodes.map (fun n => n.id)).Nodup) :
    ((getPeers s p draw).peers).Pairwise (fun a b => a.id ≠ b.id) := by
  have hcand : ((s.nodes.filter (eligible p)).map (fun n => n.id)).Nodup :=
    hnodup.sublist ((List.filter_sublist s.nodes).map _)
  have hsorted : ((List.insertionSort (peerLe draw) (s.nodes.filter (eligible p))).map
      (fun n => n.id)).Nodup :=
    (((List.perm_insertionSort (peerLe draw) _).map _).nodup_iff).mpr hcand
  have htake : (((getPeers s p draw).peers).map (fun n => n.id)).Nodup := by
    unfold getPeers
    exact hsorted.sublist ((List.take_sublist _ _).map _)
  exact List.pairwise_map.mp htake

/-- The ORDER BY relation plus distinct ids yields the claim's trichotomy
(given that the random draw is injective). -/
theorem peerLe_implies_c3Rel (draw : Nat → Nat) (hinj : Function.Injective draw)
    (a b : NodeRow) (hne : a.id ≠ b.id) (h : peerLe draw a b) : c3Rel draw a b := by
  have hdraw : draw a.id ≠ draw b.id := fun hc => hne (hinj hc)
  unfold peerLe at h
  unfold c3Rel
  cases ha : a.response_time with
  | none =>
    cases hb : b.response_time with
    | none =>
      have hd : draw a.id ≤ draw b.id := by
        simp only [nullFlag, rtv, ha, hb, Option.getD_none] at h
        omega
      exact Or.inr (Or.inr ⟨rfl, lt_of_le_of_ne hd hdraw⟩)
    | some y =>
      exfalso
      simp only [nullFlag, rtv, ha, hb, Option.getD_none, Option.getD_some] at h
      omega
  | some x =>
    cases hb : b.response_time with
    | none => exact Or.inr (Or.inl ⟨rfl, rfl⟩)
    | some y =>
      simp only [nullFlag, rtv, ha, hb, Option.getD_some] at h
      rcases h with h | ⟨-, h | ⟨hxy, hd⟩⟩
      · omega
      · exact Or.inl ⟨x, y, rfl, rfl, h⟩
      · exact Or.inr (Or.inr ⟨by rw [hxy], lt_of_le_of_ne hd hdraw⟩)

/-- C3 (confirmed): for every call, the returned peers are pairwise in the
claimed order — strictly smaller response time first, measured before
unmeasured, or tied and ordered by the call's random draw. The draw is a
parameter of the call (fresh each call, not part of the store), assumed
injective, and node ids are unique as the primary key guarantees. -/
theorem getPeers_ordering (s : Store) (p : GetPeersParams) (draw : Nat → Nat)
    (hinj : Function.Injective draw)
    (hnodup : (s.nodes.map (fun n => n.id)).Nodup) :
    ((getPeers s p draw).peers).Pairwise (c3Rel draw) := by
  have hle := peers_pairwise_le s p draw
  have hne := peers_pairwise_ne s p draw hnodup
  have hand := hle.and hne
  exact hand.imp (fun hab => peerLe_implies_c3Rel draw hinj _ _ hab.2 hab.1)

/-- Two equally healthy online nodes for the C3 witness. -/
def c3Store : Store :=
  { nodes :=
      [{ id := 1, name := "a", host := "h1", port := 80, protocol := "http",
         max_connections := 10, status := "Online" },
       { id := 2, name := "b", host := "h2", port := 80, protocol := "http",
         max_connections := 10, status := "Online" }] }

/-- C3 witness: the ordering theorem applied to a concrete two-node store
with the identity draw. -/
theorem getPeers_ordering_witness :
    ((getPeers c3Store { count := some 2 } (fun n => n)).peers).Pairwise
      (c3Rel (fun n => n)) :=
  getPeers_ordering c3Store { count := some 2 } (fun n => n)
    (fun _ _ h => h) (by decide)

/-! ### Theorems: peer selector eligibility (C4) -/

/-- An online node whose region is set to `"EU"`. -/
def c4Node : NodeRow :=
  { id := 1, name := "eu-node", host := "h", port := 80, protocol := "http",
    max_connections := 10, status := "Online", region := some "EU" }

/-- Store for the C4 counterexample. -/
def c4Store : Store := { nodes := [c4Node] }

/-- C4, counterexample: with the blank region filter `" "` supplied, the
selector silently drops the region condition (`params.region.trim() !== ""`
fails), so a node whose region is `"EU"` — neither equal to the given filter
nor unset — is returned, contradicting the claim for every given filter. -/
theorem c4_counterexample :
    (getPeers c4Store { region := some " " } (fun _ => 0)).peers = [c4Node] ∧
    c4Node.region ≠ some " " ∧ c4Node.region ≠ none := by
  refine ⟨by decide, by decide, by decide⟩

/-- The protocol condition really filters when the filter is non-empty. -/
theorem protocolOk_spec (popt : Option String) (n : NodeRow)
    (h : protocolOk popt n = true) (pr : String) (hpr : popt = some pr)
    (h0 : pr ≠ "") : n.protocol = pr := by
  subst hpr
  rw [show protocolOk (some pr) n = (if pr = "" then true else n.protocol == pr) from rfl,
    if_neg h0] at h
  exact eq_of_beq h

/-- The region condition really filters when the filter is non-blank:
the node's region equals the trimmed filter or is NULL. -/
theorem regionOk_spec (ropt : Option String) (n : NodeRow)
    (h : regionOk ropt n = true) (rf : String) (hrf : ropt = some rf)
    (h0 : jsTrim rf ≠ "") : n.region = some (jsTrim rf) ∨ n.region = none := by
  subst hrf
  rw [show regionOk (some rf) n =
      (if jsTrim rf = "" then true else (n.region == some (jsTrim rf) || n.region == none))
    from rfl, if_neg h0] at h
  simp only [Bool.or_eq_true] at h
  rcases h with h1 | h1
  · exact Or.inl (eq_of_beq h1)
  · exact Or.inr (eq_of_beq h1)

/-- C4 (amended): every returned peer has cached status `Online`; the
protocol filter is enforced whenever it is a non-empty string; the region
filter is enforced whenever it is non-blank after trimming, in which case the
peer's region equals the TRIMMED filter or is unset. (A blank filter — empty
or whitespace-only — is silently treated as absent.) -/
theorem getPeers_eligibility (s : Store) (p : GetPeersParams) (draw : Nat → Nat) :
    ∀ n ∈ (getPeers s p draw).peers,
      n.status = "Online" ∧
      (∀ pr, p.protocol = some pr → pr ≠ "" → n.protocol = pr) ∧
      (∀ rf, p.region = some rf → jsTrim rf ≠ "" →
        (n.region = some (jsTrim rf) ∨ n.region = none)) := by
  intro n hn
  have he := mem_peers_eligible s p draw n hn
  unfold eligible at he
  simp only [Bool.and_eq_true] at he
  obtain ⟨⟨hstat, hprot⟩, hreg⟩ := he
  refine ⟨eq_of_beq hstat, ?_, ?_⟩
  · intro pr hpr h0
    exact protocolOk_spec p.protocol n hprot pr hpr h0
  · intro rf hrf h0
    exact regionOk_spec p.region n hreg rf hrf h0

/-- An online `http` node in region `US` for the C4 witness. -/
def c4wNode : NodeRow :=
  { id := 1, name := "us-node", host := "h", port := 80, protocol := "http",
    max_connections := 10, status := "Online", region := some "US" }

/-- Store for the C4 witness. -/
def c4wStore : Store := { nodes := [c4wNode] }

/-- C4 witness: the amended eligibility theorem applied to a returned peer of
a concrete call with both filters active. -/
theorem getPeers_eligibility_witness :
    c4wNode ∈ (getPeers c4wStore { protocol := some "http", region := some "US" }
      (fun _ => 0)).peers ∧
    (c4wNode.status = "Online" ∧
      (∀ pr, ({ protocol := some "http", region := some "US" } : GetPeersParams).protocol =
        some pr → pr ≠ "" → c4wNode.protocol = pr) ∧
      (∀ rf, ({ protocol := some "http", region := some "US" } : GetPeersParams).region =
        some rf → jsTrim rf ≠ "" →
          (c4wNode.region = some (jsTrim rf) ∨ c4wNode.region = none))) :=
  ⟨by decide,
   getPeers_eligibility c4wStore { protocol := some "http", region := some "US" }
     (fun _ => 0) c4wNode (by decide)⟩

/-! ### Theorems: peer selector bounds and availability (C5) -/

/-- C5 (confirmed): for an in-range requested count `c`, `total_available` is
the number of all WHERE-matching rows computed before truncation; the peer
list is no longer than `c` and than `total_available`;
`next_batch_available` holds exactly when `total_available > c`; and with no
eligible node the call yields the empty list, zero availability and no next
batch — a normal return, not an error. -/
theorem getPeers_bounds (s : Store) (p : GetPeersParams) (draw : Nat → Nat) (c : Nat)
    (hc : p.count = some c) (h1 : 1 ≤ c) (h2 : c ≤ 20) :
    (getPeers s p draw).total_available = (s.nodes.filter (eligible p)).length ∧
    (getPeers s p draw).peers.length ≤ c ∧
    (getPeers s p draw).peers.length ≤ (getPeers s p draw).total_available ∧
    ((getPeers s p draw).next_batch_available = true ↔
      (getPeers s p draw).total_available > c) ∧
    ((s.nodes.filter (eligible p)).length = 0 →
      (getPeers s p draw).peers = [] ∧
      (getPeers s p draw).total_available = 0 ∧
      (getPeers s p draw).next_batch_available = false) := by
  obtain ⟨m, rfl⟩ : ∃ m, c = m + 1 := ⟨c - 1, by omega⟩
  have hcl : clampCount p.count = m + 1 := by
    rw [hc]
    show min (m + 1) 20 = m + 1
    omega
  have hpe : (getPeers s p draw).peers =
      (List.insertionSort (peerLe draw) (s.nodes.filter (eligible p))).take
        (clampCount p.count) := rfl
  have hta : (getPeers s p draw).total_available =
      (s.nodes.filter (eligible p)).length := rfl
  have hnb : (getPeers s p draw).next_batch_available =
      decide ((s.nodes.filter (eligible p)).length > clampCount p.count) := rfl
  have hlen : (List.insertionSort (peerLe draw) (s.nodes.filter (eligible p))).length =
      (s.nodes.filter (eligible p)).length :=
    (List.perm_insertionSort (peerLe draw) _).length_eq
  refine ⟨hta, ?_, ?_, ?_, ?_⟩
  · rw [hpe, hcl, List.length_take]
    omega
  · rw [hpe, hta, List.length_take]
    omega
  · rw [hnb, hcl]
    simp only [decide_eq_true_eq, hta]
  · intro h0
    have hnil : s.nodes.filter (eligible p) = [] := List.length_eq_zero.mp h0
    refine ⟨?_, ?_, ?_⟩
    · rw [hpe, hnil]
      simp [List.insertionSort]
    · rw [hta, h0]
    · rw [hnb, h0]
      simp

/-- One online node for the C5 witness. -/
def c5Store : Store :=
  { nodes := [{ id := 1, name := "n", host := "h", port := 80, protocol := "http",
                max_connections := 10, status := "Online" }] }

/-- C5 witness: the bounds theorem applied at a concrete call with count 3. -/
theorem getPeers_bounds_witness :
    (getPeers c5Store { count := some 3 } (fun _ => 0)).total_available =
      (c5Store.nodes.filter (eligible { count := some 3 })).length ∧
    (getPeers c5Store { count := some 3 } (fun _ => 0)).peers.length ≤ 3 ∧
    (getPeers c5Store { count := some 3 } (fun _ => 0)).peers.length ≤
      (getPeers c5Store { count := some 3 } (fun _ => 0)).total_available ∧
    ((getPeers c5Store { count := some 3 } (fun _ => 0)).next_batch_available = true ↔
      (getPeers c5Store { count := some 3 } (fun _ => 0)).total_available > 3) ∧
    ((c5Store.nodes.filter (eligible { count := some 3 })).length = 0 →
      (getPeers c5Store { count := some 3 } (fun _ => 0)).peers = [] ∧
      (getPeers c5Store { count := some 3 } (fun _ => 0)).total_available = 0 ∧
      (getPeers c5Store { count := some 3 } (fun _ => 0)).next_batch_available = false) :=
  getPeers_bounds c5Store { count := some 3 } (fun _ => 0) 3 rfl (by decide) (by decide)

/-! ### Theorems: count validation at the peers route (C6, C10) -/

/-- C6, counterexample: `count = 0` lies outside [1, 20], yet the route does
not reject it — `parseInt(count) || 5` treats 0 as falsy and silently
replaces it with the default 5, and the call succeeds. -/
theorem c6_counterexample :
    ¬ (1 ≤ (0 : Int) ∧ (0 : Int) ≤ 20) ∧
    controllerGetPeers {} (some 0) none none (fun _ => 0) =
      .ok { peers := [], total_available := 0, next_batch_available := false } := by
  refine ⟨by omega, by decide⟩

/-- C6 (amended): every requested count outside [1, 20] OTHER THAN 0 (which,
like a missing or unparseable count, is falsy and silently defaults to 5) is
rejected with the validation message immediately: the response does not
depend on the store at all — no query runs and no mutation happens. -/
theorem controllerGetPeers_rejects (s s' : Store) (n : Int) (qp qr : Option String)
    (draw draw' : Nat → Nat) (h0 : n ≠ 0) (hout : n < 1 ∨ 20 < n) :
    controllerGetPeers s (some n) qp qr draw =
      .validationError "节点数量必须在 1-20 之间" ∧
    controllerGetPeers s (some n) qp qr draw =
      controllerGetPeers s' (some n) qp qr draw' := by
  have hpc : parsedCount (some n) = n := by
    rw [show parsedCount (some n) = (if n = 0 then 5 else n) from rfl, if_neg h0]
  have hmain : ∀ t : Store, ∀ d : Nat → Nat,
      controllerGetPeers t (some n) qp qr d =
        .validationError "节点数量必须在 1-20 之间" := by
    intro t d
    show (if 1 ≤ parsedCount (some n) ∧ parsedCount (some n) ≤ 20 then _ else _) = _
    rw [hpc, if_neg (by omega)]
  exact ⟨hmain s draw, by rw [hmain s draw, hmain s' draw']⟩

/-- C6 witness: the rejection theorem at the concrete out-of-range count 25,
on two different stores. -/
theorem controllerGetPeers_rejects_witness :
    controllerGetPeers {} (some 25) none none (fun _ => 0) =
      .validationError "节点数量必须在 1-20 之间" ∧
    controllerGetPeers {} (some 25) none none (fun _ => 0) =
      controllerGetPeers c4wStore (some 25) none none (fun _ => 1) :=
  controllerGetPeers_rejects {} c4wStore 25 none none (fun _ => 0) (fun _ => 1)
    (by omega) (by omega)

/-- C10 (confirmed): a request that omits `count` (or supplies 0, or a value
`parseInt` cannot parse) is not rejected: the batch size silently defaults
to 5, the call succeeds, and at most 5 peers come back. -/
theorem controllerGetPeers_default (s : Store) (rawCount : Option Int)
    (qp qr : Option String) (draw : Nat → Nat)
    (h : rawCount = none ∨ rawCount = some 0) :
    controllerGetPeers s rawCount qp qr draw =
      .ok (getPeers s
        { count := some 5, protocol := orUndefined qp, region := orUndefined qr } draw) ∧
    (getPeers s
      { count := some 5, protocol := orUndefined qp, region := orUndefined qr }
      draw).peers.length ≤ 5 := by
  have hpc : parsedCount rawCount = 5 := by
    rcases h with h | h <;> rw [h] <;> rfl
  constructor
  · show (if 1 ≤ parsedCount rawCount ∧ parsedCount rawCount ≤ 20 then _ else _) = _
    rw [hpc, if_pos (by omega)]
    rfl
  · show (List.take (clampCount (some 5)) _).length ≤ 5
    rw [show clampCount (some 5) = 5 from rfl, List.length_take]
    omega

/-- C10 witness: the defaulting theorem applied to a one-node store with the
count parameter omitted. -/
theorem controllerGetPeers_default_witness :
    controllerGetPeers c5Store none none none (fun _ => 0) =
      .ok (getPeers c5Store { count := some 5 } (fun _ => 0)) ∧
    (getPeers c5Store { count := some 5 } (fun _ => 0)).peers.length ≤ 5 :=
  controllerGetPeers_default c5Store none none none (fun _ => 0) (Or.inl rfl)

/-! ### Theorems: credential deletion and the access log (C7) -/

/-- A log row of credential 1 (the credential to be deleted). -/
def c7Log1 : AccessLogRow := { api_key_id := some 1, created_at := 10 }

/-- A log row of another credential. -/
def c7Other : AccessLogRow := { api_key_id := some 2, created_at := 20 }

/-- Store with two credentials and one log row each. -/
def c7Store : Store :=
  { api_keys := [{ id := 1, key := "k7", rate_limit := 1000 },
                 { id := 2, key := "k8", rate_limit := 1000 }]
    api_access_logs := [c7Log1, c7Other] }

/-- C7, counterexample: deleting credential 1 REMOVES its access-log row —
afterwards no row of the store has a null credential id, and the row that
the claim says should remain (with `api_key_id` nulled) is gone. -/
theorem c7_counterexample :
    c7Log1 ∈ c7Store.api_access_logs ∧
    (apiKeyDelete c7Store 1).1.api_access_logs = [c7Other] ∧
    (∀ e ∈ (apiKeyDelete c7Store 1).1.api_access_logs, e.api_key_id ≠ none) := by
  decide

/-- `ApiKey.logAccess` always rejects: the UPDATE names the column
`last_used`, which the schema does not declare. -/
theorem logAccess_missing_column (s : Store) (d : LogAccessData) (now : Int) :
    logAccess s d now = .error (.noSuchColumn "api_keys" "last_used") := by
  unfold logAccess updateApiKeysLastUsed
  rw [if_neg (by decide)]

/-- C7 (amended): deleting a credential deletes that credential's access-log
rows in the same transaction (they are not kept with a nulled id); rows of
other credentials survive unchanged, no row is ever edited in place or
invented by deletion, the logger at most appends rows, and a node status
update never touches the access log. -/
theorem apiKeyDelete_logs (s : Store) (apiKeyId : Nat) :
    (apiKeyDelete s apiKeyId).1.api_access_logs =
      s.api_access_logs.filter (fun e => !(e.api_key_id == some apiKeyId)) ∧
    (∀ e ∈ s.api_access_logs, e.api_key_id ≠ some apiKeyId →
      e ∈ (apiKeyDelete s apiKeyId).1.api_access_logs) ∧
    (∀ e ∈ (apiKeyDelete s apiKeyId).1.api_access_logs, e ∈ s.api_access_logs) ∧
    (∀ d now, ∃ tl, (middlewareLogAccess s d now).1.api_access_logs =
      s.api_access_logs ++ tl) ∧
    (∀ h nodeId status md rt now,
      ((nodeUpdateStatus h s nodeId status md rt now).1).api_access_logs =
        s.api_access_logs) := by
  refine ⟨rfl, ?_, ?_, ?_, ?_⟩
  · intro e he hne
    exact List.mem_filter.mpr ⟨he, by simp [hne]⟩
  · intro e he
    exact List.mem_of_mem_filter he
  · intro d now
    refine ⟨[], ?_⟩
    simp [middlewareLogAccess, logAccess_missing_column]
  · intro h nodeId status md rt now
    cases h with
    | failing => rfl
    | healthy =>
      by_cases hx : s.nodes.any (fun n => n.id == nodeId) = true
      · simp [nodeUpdateStatus, nodeUpdateStatusRaw, hx]
      · simp [nodeUpdateStatus, nodeUpdateStatusRaw, hx]

/-- C7 witness: a row of the surviving credential is still present after the
deletion, via the amended theorem at the concrete store. -/
theorem apiKeyDelete_logs_witness :
    c7Other ∈ c7Store.api_access_logs ∧ c7Other.api_key_id ≠ some 1 ∧
    c7Other ∈ (apiKeyDelete c7Store 1).1.api_access_logs :=
  ⟨by decide, by decide, (apiKeyDelete_logs c7Store 1).2.1 c7Other (by decide) (by decide)⟩

/-! ### Theorems: access logging (C8) -/

/-- Modelled from the spec: `log(entry)` appends exactly one access-log row
and updates the credential's last-used timestamp as a side effect — the
behaviour the schema's `last_used_at` column was set up for. -/
def specLogAccess (s : Store) (d : LogAccessData) (now : Int) : Store :=
  let s1 := insertAccessLog s d now
  let touch := fun (k : ApiKeyRow) =>
    if k.id == d.api_key_id then { k with last_used_at := some now } else k
  { s1 with api_keys := s1.api_keys.map touch }

/-- C8 (code bug): every `logAccess` call fails — the UPDATE names column
`last_used` while the schema declares `last_used_at` — so the transaction
rolls back and NO access-log row is appended and no timestamp is updated,
contradicting the claim's append-and-touch behaviour (shown against the
spec-modelled logger, which appends one row). The claim's non-propagation
half does hold: the middleware's `.catch` swallows the rejection and the
request's response is still sent. -/
theorem c8_logAccess_broken (s : Store) (d : LogAccessData) (now : Int) :
    logAccess s d now = .error (.noSuchColumn "api_keys" "last_used") ∧
    ¬ "last_used" ∈ apiKeysColumns ∧
    "last_used_at" ∈ apiKeysColumns ∧
    (middlewareLogAccess s d now).1 = s ∧
    (middlewareLogAccess s d now).2 = true ∧
    (specLogAccess s d now).api_access_logs.length = s.api_access_logs.length + 1 ∧
    (middlewareLogAccess s d now).1.api_access_logs.length = s.api_access_logs.length := by
  have hmw : middlewareLogAccess s d now = (s, true) := by
    unfold middlewareLogAccess
    rw [logAccess_missing_column]
  refine ⟨logAccess_missing_column s d now, by decide, by decide, ?_, ?_, ?_, ?_⟩
  · rw [hmw]
  · rw [hmw]
  · simp [specLogAccess, insertAccessLog]
  · rw [hmw]

/-! ### Theorems: store failure during a status update (C9) -/

/-- C9, counterexample: with the durable store failing, the driver rejects
(`.error .ioFailure`), but `Node.updateStatus` catches it and returns the
plain value `(store, false)` — a normal non-error return, not a surfaced
server-side failure as the claim states. -/
theorem c9_counterexample :
    nodeUpdateStatusRaw .failing {} 1 "Online" none (some 20) 0 =
      .error .ioFailure ∧
    nodeUpdateStatus .failing {} 1 "Online" none (some 20) 0 = ({}, false) :=
  ⟨rfl, rfl⟩

/-- C9 (amended): on durable-store failure, `Node.updateStatus` does not
surface the failure: the `try/catch` converts any store error into the
normal return `false` (indistinguishable from "no row updated"), leaving the
store as it was; there is no retry and no error reaches the caller. -/
theorem nodeUpdateStatus_swallows (s : Store) (nodeId : Nat) (status : String)
    (md : Option String) (rt : Option Int) (now : Int) :
    nodeUpdateStatusRaw .failing s nodeId status md rt now = .error .ioFailure ∧
    nodeUpdateStatus .failing s nodeId status md rt now = (s, false) :=
  ⟨rfl, rfl⟩

end NeoUptime
